import Mathlib

set_option maxHeartbeats 1000000

/-!
Verification development for `cauldron/session/writing.py`: the export-and-
caching pipeline that turns an executed project into a static result bundle.
The filesystem is modelled as an explicit state value (an association list of
file paths to contents plus a list of directories) threaded through every
operation, together with an event trace recording each mutating call.
Fallible operations (Python calls that can raise) return `Except Unit`.
-/

namespace Cauldron

/-- JSON values as produced and consumed by Python's `json` module
(`json.load` / `json.dump`).  Numbers are modelled as integers: the cache
records this program writes contain only integer numerics, and floating
point is out of scope for the verified claims. -/
inductive Json where
  | null : Json
  | bool : Bool → Json
  | num : Int → Json
  | str : String → Json
  | arr : List Json → Json
  | obj : List (String × Json) → Json

/-- Python truthiness of a JSON value (`if cached:` in `write_step`):
`None`, `False`, `0`, `""`, `[]` and `{}` are falsy, everything else truthy. -/
def Json.truthy : Json → Bool
  | .null => false
  | .bool b => b
  | .num n => n != 0
  | .str s => s != ""
  | .arr xs => !xs.isEmpty
  | .obj kvs => !kvs.isEmpty

/-- The keys of a JSON object, in order; `[]` for non-objects.  Used as a
decidable observation separating distinct records. -/
def Json.keys : Json → List String
  | .obj kvs => kvs.map Prod.fst
  | _ => []

/-- Truthiness of `get_cached_step_data`'s result: `None` is falsy, a parsed
JSON value has its own Python truthiness. -/
def optTruthy : Option Json → Bool
  | none => false
  | some j => j.truthy

/-- Contents of a file in the modelled filesystem.  `json j` is a file whose
bytes are a valid JSON serialization of `j` (written by `json.dump`); `text s`
is arbitrary text on which `json.load` fails.  (`json.dump` output is also
readable as text, but no code path in this module re-reads a cache artifact
as plain text, so the two constructors never interact.) -/
inductive FileContent where
  | text : String → FileContent
  | json : Json → FileContent

/-- The filesystem state: an association list from absolute path to file
content (first match wins) plus the list of existing directories. -/
structure FileSystem where
  files : List (String × FileContent)
  dirs : List String

/-- One observable filesystem mutation, recorded in the world's trace.
`cacheWrite` is the `json.dump` performed by `write_step_cache`; `fileWrite`
is any `open(..., 'w+')` text write; `treeCopy` records the destination file
paths it created. -/
inductive Event where
  | fileWrite : String → Event
  | cacheWrite : String → Event
  | fileCopy : String → String → Event
  | treeCopy : String → String → List String → Event
  | makeDirs : String → Event
  | removeTree : String → Event
  | logMessage : String → Event

/-- The full mutable world: the filesystem plus the trace of mutations,
newest first. -/
structure World where
  fs : FileSystem
  trace : List Event

/-- Destination paths created by one event (file writes, cache writes and
copies; directory operations create no files). -/
def Event.writes : Event → List String
  | .fileWrite p => [p]
  | .cacheWrite p => [p]
  | .fileCopy _ dst => [dst]
  | .treeCopy _ _ created => created
  | _ => []

/-- All file paths created by a list of events. -/
def writesIn (es : List Event) : List String :=
  (es.map Event.writes).flatten

/-- Prefix test on character lists: `isPrefixList p s` is true when `p` is
an initial segment of `s`.  (Structural implementation, used in place of the
library's well-founded string primitives so that every model function
evaluates by kernel reduction.) -/
def isPrefixList : List Char → List Char → Bool
  | [], _ => true
  | _ :: _, [] => false
  | p :: ps, c :: cs => p == c && isPrefixList ps cs

/-- Python `s.startswith(pre)`. -/
def strStartsWith (s pre : String) : Bool :=
  isPrefixList pre.toList s.toList

/-- Python `s.endswith(suf)`. -/
def strEndsWith (s suf : String) : Bool :=
  isPrefixList suf.toList.reverse s.toList.reverse

/-- Split a character list on `'/'` (the components of a POSIX path),
Python `s.split('/')`. -/
def splitSlash : List Char → List (List Char)
  | [] => [[]]
  | c :: cs =>
    if c = '/' then [] :: splitSlash cs
    else
      match splitSlash cs with
      | [] => [[c]]
      | h :: t => (c :: h) :: t

/-- The `'/'`-separated components of a path. -/
def pathComps (s : String) : List String :=
  (splitSlash s.toList).map String.mk

/-- Python single-character `s.replace(a, b)`. -/
def charReplace (a b : Char) (s : String) : String :=
  String.mk (s.toList.map (fun c => if c = a then b else c))

/-- Replace occurrences of the pattern `p :: ps`, left to right and
non-overlapping, with `rep`; the fuel argument (initialized to the input
length, which bounds the number of steps) keeps the recursion structural. -/
def replaceAux (p : Char) (ps rep : List Char) : Nat → List Char → List Char
  | _, [] => []
  | 0, cs => cs
  | fuel + 1, c :: cs =>
    if p == c && isPrefixList ps cs then
      rep ++ replaceAux p ps rep fuel (cs.drop ps.length)
    else c :: replaceAux p ps rep fuel cs

/-- Python `s.replace(pat, rep)` for a non-empty pattern (the source only
substitutes the fixed marker comment, which is non-empty). -/
def strReplace (s pat rep : String) : String :=
  match pat.toList with
  | [] => s
  | p :: ps => String.mk (replaceAux p ps rep.toList s.toList.length s.toList)

/-- The backslash character (Windows path separator, normalized away by the
include resolver). -/
def BSL : Char := Char.ofNat 92

/-- The paths of all files present in the filesystem. -/
def filePaths (fs : FileSystem) : List String :=
  fs.files.map Prod.fst

/-- Content of the file at `p`, if a file exists there. -/
def lookupFile (fs : FileSystem) (p : String) : Option FileContent :=
  (fs.files.find? (fun e => e.1 == p)).map Prod.snd

/-- `os.path.exists`: true if `p` is an existing file or directory. -/
def pathExists (fs : FileSystem) (p : String) : Bool :=
  fs.files.any (fun e => e.1 == p) || fs.dirs.contains p

/-- `os.path.isdir`. -/
def isDir (fs : FileSystem) (p : String) : Bool :=
  fs.dirs.contains p

/-- Create or overwrite the file at `p` (the filesystem part of
`open(p, 'w+')` followed by a write). -/
def setFile (fs : FileSystem) (p : String) (c : FileContent) : FileSystem :=
  { fs with files := (p, c) :: fs.files.filter (fun e => !(e.1 == p)) }

/-- `os.path.dirname`: everything before the final path separator. -/
def dirname (p : String) : String :=
  let parts := pathComps p
  if parts.length ≤ 1 then ""
  else
    let d := String.intercalate "/" parts.dropLast
    if d = "" then "/" else d

/-- `os.path.join` for two components: an absolute second component
discards the first, otherwise the components are joined with a single
separator. -/
def osJoin (a b : String) : String :=
  if strStartsWith b "/" then b
  else if a = "" then b
  else if strEndsWith a "/" then a ++ b
  else a ++ "/" ++ b

/-- All the directories `os.makedirs p` brings into existence: each
successive prefix of `p`'s components (a leading empty component denotes the
root). -/
def pathPrefixes (p : String) : List String :=
  let comps := pathComps p
  (List.range comps.length).map (fun i =>
    let pre := String.intercalate "/" (comps.take (i + 1))
    if pre = "" then "/" else pre)

/-- Add a directory if not already present (keeps `dirs` duplicate-free
across `makedirs` calls). -/
def addDir (ds : List String) (d : String) : List String :=
  if ds.contains d then ds else d :: ds

/-- `os.makedirs p`: create `p` and all missing ancestors. -/
def mkdirsW (w : World) (p : String) : World :=
  { fs := { w.fs with dirs := (pathPrefixes p).foldl addDir w.fs.dirs },
    trace := .makeDirs p :: w.trace }

/-- The guarded creation pattern used throughout the source:
`if not os.path.exists(d): os.makedirs(d)`. -/
def ensureDirW (w : World) (d : String) : World :=
  if pathExists w.fs d then w else mkdirsW w d

/-- Write text to a file (`open(path, 'w+')` / `f.write`). -/
def writeTextW (w : World) (p : String) (s : String) : World :=
  { fs := setFile w.fs p (.text s), trace := .fileWrite p :: w.trace }

/-- Read a file as text (`open(p, 'r+')` / `f.read`); raises (`.error`)
when the path is not a readable text file. -/
def readTextE (w : World) (p : String) : Except Unit String :=
  match lookupFile w.fs p with
  | some (.text s) => .ok s
  | _ => .error ()

/-- `p` lies strictly inside directory `d`. -/
def underDir (d p : String) : Bool :=
  strStartsWith p (d ++ "/")

/-- `shutil.copy2 src dst`: copy one file, raising when `src` is not an
existing file. -/
def copy2E (w : World) (src dst : String) : Except Unit World :=
  match lookupFile w.fs src with
  | none => .error ()
  | some c =>
      .ok { fs := setFile w.fs dst c, trace := .fileCopy src dst :: w.trace }

/-- `shutil.copytree src dst`: recursively copy the directory `src` to the
fresh path `dst`; raises when `dst` already exists or `src` is not a
directory. -/
def copytreeE (w : World) (src dst : String) : Except Unit World :=
  if pathExists w.fs dst then .error ()
  else if !(w.fs.dirs.contains src) then .error ()
  else
    let newFiles := (w.fs.files.filter (fun e => underDir src e.1)).map
      (fun e => (dst ++ e.1.drop src.length, e.2))
    let newDirs := dst :: (w.fs.dirs.filter (fun d => underDir src d)).map
      (fun d => dst ++ d.drop src.length)
    .ok { fs := { files := newFiles ++ w.fs.files, dirs := newDirs ++ w.fs.dirs },
          trace := .treeCopy src dst (newFiles.map Prod.fst) :: w.trace }

/-- The path of `p` relative to directory `d` (assuming `underDir d p`). -/
def relPath (d p : String) : String :=
  p.drop (d.length + 1)

/-- Whether `p`, relative to `d`, has a path component starting with a dot
(such entries are skipped by Python's `glob`). -/
def hasHiddenComponent (d p : String) : Bool :=
  (splitSlash (relPath d p).toList).any (fun comp => isPrefixList ['.'] comp)

/-- `glob.iglob(os.path.join(d, '**', '*'), recursive=True)`: every
non-hidden descendant of `d` — files and directories alike.  The real glob
yields entries in directory-walk order; the model fixes the order as files
followed by directories, which no verified claim depends on. -/
def globStar (fs : FileSystem) (d : String) : List String :=
  (fs.files.map Prod.fst ++ fs.dirs).filter
    (fun p => underDir d p && !hasHiddenComponent d p)

/-- Modelled from the spec: `environ.paths.clean` is code of this repository
not present under `src/` (module `cauldron.environ.paths`).  Per spec section
1 it is an out-of-scope path-cleaning utility consumed through a narrow
contract; model paths are already clean, so it is the identity. -/
def paths_clean (p : String) : String := p

/-- A step definition; `write_step` reads only its `name`. -/
structure StepDefinition where
  name : String

/-- A step's `Report`: the structured data mapping (`report.data.fetch(None)`),
the mapping of output-relative filenames to contents to write
(`report.files.fetch(None)`), the requested library-include names (a Python
list, possibly with duplicates), and the step's cache-artifact path. -/
structure Report where
  data : List (String × Json)
  files : List (String × String)
  library_includes : List String
  results_cache_path : String

/-- A `ProjectStep`, as read by this module.  `status` models the result of
the `step.status()` call and `dumpsVal` the result of `step.dumps()` (a fresh
render); both are supplied by the out-of-scope execution engine. -/
structure ProjectStep where
  definition : StepDefinition
  status : Json
  error : Bool
  last_modified : Bool
  is_muted : Bool
  is_running : Bool
  dom : Option String
  dumpsVal : String
  web_includes : List String
  report : Report

/-- A `Project`.  `settings` is the snapshot returned by
`project.settings.fetch(None)`; `web_includes_setting` is the typed value
returned by `project.settings.fetch('web_includes', [])` (the settings store
itself is an external collaborator, so the two fetches used by the source are
modelled as two fields). -/
structure Project where
  source_directory : String
  output_directory : String
  output_path : String
  results_path : String
  uuid : String
  steps : List ProjectStep
  settings : List (String × Json)
  web_includes_setting : List String

/-- The resource locator obtained from `bokeh.resources.Resources
(mode='absolute')`: the absolute paths of the library's CSS and JS files. -/
structure BokehResources where
  css_files : List String
  js_files : List String

/-- The `plotly.offline.offline` module object; `file_dir` models
`os.path.dirname(plotly_offline.__file__)`. -/
structure PlotlyOffline where
  file_dir : String

/-- The ambient environment (`cauldron.environ`, `cauldron.cli`,
`cauldron.templating`): out-of-scope collaborators consumed through narrow
contracts.  `bokehImport`/`plotlyImport` model the dynamic import attempts:
`none` is an import failure (exception caught), `some none` an import that
delivered `None`, `some (some r)` a successful load. -/
structure Env where
  version_info : List Int
  version : String
  resources_root : String
  bokehImport : Option (Option BokehResources)
  plotlyImport : Option (Option PlotlyOffline)
  render_template : String → Json → String
  reformat : String → String

/-- `environ.paths.resources('web', 'components', name)`. -/
def resources_components_dir (env : Env) (name : String) : String :=
  osJoin (osJoin (osJoin env.resources_root "web") "components") name

/-- A web include entry: the dictionaries `{'name': ..., 'src': ...}` the
resolver functions build. -/
structure WebInclude where
  name : String
  src : String

/-- Serialization of a `WebInclude` into the results JSON.  (The Python
dictionaries are built with varying key order at the different construction
sites; JSON object key order is semantically irrelevant, and the model fixes
name-then-src.) -/
def WebInclude.toJson (i : WebInclude) : Json :=
  .obj [("name", .str i.name), ("src", .str i.src)]

/-- Assign `k := v` in a Python dict modelled as an association list: an
existing key keeps its position, a new key is appended. -/
def setKey (kvs : List (String × Json)) (k : String) (v : Json) :
    List (String × Json) :=
  if kvs.any (fun e => e.1 == k) then
    kvs.map (fun e => if e.1 == k then (k, v) else e)
  else kvs ++ [(k, v)]

/-- Value stored under `k` in a dict modelled as an association list. -/
def lookupKey (kvs : List (String × Json)) (k : String) : Option Json :=
  (kvs.find? (fun e => e.1 == k)).map Prod.snd

/-- Python `base.update(upd)` on dicts. -/
def dictUpdate (base upd : List (String × Json)) : List (String × Json) :=
  upd.foldl (fun acc e => setKey acc e.1 e.2) base

/-- Reading a dict-typed slot out of a record: raises (as the Python
attribute access on the slot's value does) when the slot is missing or not a
dict. -/
def asObjE : Option Json → Except Unit (List (String × Json))
  | some (.obj kvs) => .ok kvs
  | _ => .error ()

/-- Reading a list-typed slot out of a record: raises when the slot is
missing or not a list. -/
def asArrE : Option Json → Except Unit (List Json)
  | some (.arr xs) => .ok xs
  | _ => .error ()

/-- Modelled from the spec: `environ.systems.remove` is code of this
repository not present under `src/` (module `cauldron.environ.systems`).
Spec section 4.1: `removeTree(path)` recursively deletes if present, no-op if
absent — remove the path itself and everything under it, files and
directories alike. -/
def systems_remove (w : World) (p : String) : World :=
  { fs := { files := w.fs.files.filter (fun e => !(e.1 == p || underDir p e.1)),
            dirs := w.fs.dirs.filter (fun d => !(d == p || underDir p d)) },
    trace := .removeTree p :: w.trace }

/-- `environ.log(...)`: out-of-scope logging utility; only the fact that a
warning was emitted is recorded, via a short tag. -/
def logW (w : World) (tag : String) : World :=
  { w with trace := .logMessage tag :: w.trace }

/-- `create_step_data(step)` as the entry list of the returned dict: the
skeleton record for a step that has not run. -/
def create_step_data_entries (env : Env) (step : ProjectStep) :
    List (String × Json) :=
  [("name", .str step.definition.name),
   ("status", step.status),
   ("has_error", .bool false),
   ("body", .null),
   ("data", .obj []),
   ("includes", .arr []),
   ("cauldron_version", .arr (env.version_info.map Json.num))]

/-- `create_step_data(step)`: the skeleton `StepRecord` dictionary. -/
def create_step_data (env : Env) (step : ProjectStep) : Json :=
  .obj (create_step_data_entries env step)

/-- `get_cached_step_data(step)`: read and parse the step's cache artifact;
`None` when the path does not exist, and any failure to open or parse
(directory path, unparsable text) is caught and also yields `None`. -/
def get_cached_step_data (w : World) (step : ProjectStep) : Option Json :=
  let cache_path := step.report.results_cache_path
  if !pathExists w.fs cache_path then none
  else
    match lookupFile w.fs cache_path with
    | some (.json j) => some j
    | _ => none

/-- `get_step_dom(step)`: the cached rendered body when present and the step
is not running, otherwise a fresh render via `step.dumps()`. -/
def get_step_dom (step : ProjectStep) : String :=
  match step.dom with
  | none => step.dumpsVal
  | some d => if step.is_running then step.dumpsVal else d

/-- `write_step_cache(step, data)`: no-op returning `False` when the step's
cache path is falsy (empty); otherwise ensure the parent directory exists,
serialize the record there and return `True`. -/
def write_step_cache (w : World) (step : ProjectStep) (data : Json) :
    Bool × World :=
  let cache_path := step.report.results_cache_path
  if cache_path = "" then (false, w)
  else
    let w := ensureDirW w (dirname cache_path)
    (true,
     { fs := setFile w.fs cache_path (.json data),
       trace := .cacheWrite cache_path :: w.trace })

/-- `write_files(file_writes, project)`: write each requested file under the
project's output directory, creating missing parent directories.  (The
source's early return on an empty mapping coincides with the fold over the
empty list.) -/
def write_files (file_writes : List (String × String)) (proj : Project)
    (w : World) : World :=
  file_writes.foldl (fun w e =>
    let file_path := osJoin proj.output_directory e.1
    let w := ensureDirW w (dirname file_path)
    writeTextW w file_path e.2) w

/-- `copy_files(file_copies, project)`: copy each source path to its
filename under the project's output directory, creating missing parent
directories; raises when a source file is missing. -/
def copy_files (file_copies : List (String × String)) (proj : Project)
    (w : World) : Except Unit World :=
  file_copies.foldlM (fun w e =>
    let file_path := osJoin proj.output_directory e.1
    let w := ensureDirW w (dirname file_path)
    copy2E w e.2 file_path) w

/-- `add_global_component(name, step)`: resolve a bundled component
directory for `name` under the fixed resource root; nothing when absent,
otherwise one WebInclude per `.css`/`.js` file found recursively, with the
slugged name and a `:`-rooted shared src.  Read-only: no world effects. -/
def add_global_component (env : Env) (name : String) (w : World) :
    List WebInclude :=
  let component_directory := resources_components_dir env name
  if !pathExists w.fs component_directory then []
  else
    (globStar w.fs component_directory).filterMap (fun path =>
      if !(lookupFile w.fs path).isSome then none
      else if !(strEndsWith path ".css" || strEndsWith path ".js") then none
      else
        let slug := path.drop component_directory.length
        let stripped := String.mk
          (((slug.toList.dropWhile (fun c => c = '/')).reverse.dropWhile
            (fun c => c = '/')).reverse)
        some { name := "components-" ++ name ++ "-" ++
                 String.mk (stripped.toList.map
                   (fun c => if c = '/' || c = '.' then '_' else c)),
               src := ":components/" ++ name ++ slug })

/-- `add_bokeh(step)`: degrade to no includes when the bokeh import fails;
warn and degrade when the import delivered `None`; otherwise read every CSS
resource and every JS resource, write the two concatenated files under the
`bokeh` subdirectory of the output tree, and contribute one css and one js
WebInclude.  A missing resource file raises (uncaught in the source). -/
def add_bokeh (env : Env) (proj : Project) (w : World) :
    Except Unit (List WebInclude × World) :=
  match env.bokehImport with
  | none => .ok ([], w)
  | some none => .ok ([], logW w "bokeh-missing-warning")
  | some (some br) => do
      let cssContents ← br.css_files.mapM (fun p => readTextE w p)
      let jsContents ← br.js_files.mapM (fun p => readTextE w p)
      let file_writes :=
        [("bokeh/bokeh.css", String.intercalate "\n" cssContents),
         ("bokeh/bokeh.js", String.intercalate "\n" jsContents)]
      let w := write_files file_writes proj w
      .ok ([{ name := "bokeh-css", src := "/bokeh/bokeh.css" },
            { name := "bokeh-js", src := "/bokeh/bokeh.js" }], w)

/-- `add_plotly(step)`: degrade to no includes when the plotly import fails;
warn and degrade when the import delivered `None`; otherwise copy the single
`plotly.min.js` into `components/plotly/` and contribute exactly one
WebInclude. -/
def add_plotly (env : Env) (proj : Project) (w : World) :
    Except Unit (List WebInclude × World) :=
  match env.plotlyImport with
  | none => .ok ([], w)
  | some none => .ok ([], logW w "plotly-missing-warning")
  | some (some po) => do
      let p := osJoin (paths_clean po.file_dir) "plotly.min.js"
      let save_path := "components/plotly/plotly.min.js"
      let w ← copy_files [(save_path, p)] proj w
      .ok ([{ name := "plotly", src := "/" ++ save_path }], w)

/-- `add_components(step)`: dispatch each distinct requested library name —
`set(step.report.library_includes)`, modelled as `List.dedup` (Python set
iteration order is unspecified; the model fixes one order) — to its handler
and concatenate the results. -/
def add_components (env : Env) (proj : Project) (step : ProjectStep)
    (w : World) : Except Unit (List WebInclude × World) :=
  (step.report.library_includes.dedup).foldlM
    (fun acc lib_name =>
      if lib_name = "bokeh" then do
        let (xs, w) ← add_bokeh env proj acc.2
        .ok (acc.1 ++ xs, w)
      else if lib_name = "plotly" then do
        let (xs, w) ← add_plotly env proj acc.2
        .ok (acc.1 ++ xs, w)
      else
        .ok (acc.1 ++ add_global_component env lib_name acc.2, acc.2))
    (([] : List WebInclude), w)

/-- `add_web_includes(include_paths, project)`: for each declared include
path, silently skip when absent under the source directory; copy a directory
tree and contribute one entry per globbed descendant (rooted at the output
directory, separators normalized), or copy a single file and contribute one
entry; finally wrap every url as a `:project:`-named WebInclude. -/
def add_web_includes (include_paths : List String)
    (proj : Project) (w : World) : Except Unit (List WebInclude × World) := do
  let (urls, w) ← include_paths.foldlM
    (fun (acc : List String × World) item => do
      let w := acc.2
      let source_path := paths_clean (osJoin proj.source_directory item)
      if !pathExists w.fs source_path then
        .ok (acc.1, w)
      else
        let item_path := osJoin proj.output_directory item
        let w := ensureDirW w (dirname item_path)
        if isDir w.fs source_path then do
          let w ← copytreeE w source_path item_path
          let entries := globStar w.fs item_path
          .ok (acc.1 ++ entries.map (fun entry =>
                charReplace BSL '/' (entry.drop proj.output_directory.length)),
               w)
        else do
          let w ← copy2E w source_path item_path
          .ok (acc.1 ++ ["/" ++ charReplace BSL '/' item], w))
    (([] : List String), w)
  .ok (urls.map (fun url => { name := ":project:" ++ url, src := url }), w)

/-- `populate_step_data(step, source)`: start from a copy of `source` (the
skeleton when `source is None`), layer in the error flag, the body, the
merged report data and the resolved includes.  Reading a missing or
wrongly-typed `data`/`includes` slot of a caller-supplied `source` raises,
matching the Python `KeyError`/attribute failures; includes are resolved
after the `includes` slot is read, matching CPython's evaluation order for
`out['includes'] += ...`. -/
def populate_step_data (env : Env) (proj : Project) (step : ProjectStep)
    (source : Option (List (String × Json))) (w : World) :
    Except Unit (Json × World) := do
  let out := match source with
    | none => create_step_data_entries env step
    | some s => s
  let out := setKey out "has_error" (.bool step.error)
  let out := setKey out "body" (.str (get_step_dom step))
  let data0 ← asObjE (lookupKey out "data")
  let out := setKey out "data" (.obj (dictUpdate data0 step.report.data))
  let inc0 ← asArrE (lookupKey out "includes")
  let (incA, w) ← add_web_includes step.web_includes proj w
  let (incB, w) ← add_components env proj step w
  let out := setKey out "includes"
    (.arr (inc0 ++ (incA ++ incB).map WebInclude.toJson))
  .ok (.obj out, w)

/-- `write_step(step)`: the cache manager's `getOrCompute`.  The cache is
consulted unless the step is modified or erroring; a truthy cached value is
returned as-is; a muted step then yields the fresh skeleton; otherwise the
record is composed, the report's files are written and the record is
persisted to the cache. -/
def write_step (env : Env) (proj : Project) (step : ProjectStep) (w : World) :
    Except Unit (Json × World) :=
  let cached :=
    if step.last_modified || step.error then none
    else get_cached_step_data w step
  if optTruthy cached then .ok (cached.getD .null, w)
  else if step.is_muted then .ok (create_step_data env step, w)
  else do
    let (out, w) ← populate_step_data env proj step none w
    let w := write_files step.report.files proj w
    let (_, w) := write_step_cache w step out
    .ok (out, w)

/-- The script block injected by `write_baked_html_file` in place of the
`<!-- CAULDRON:EXPORT -->` marker, passed through `cli.reformat`. -/
def baked_script (env : Env) (proj : Project) : String :=
  env.reformat
    ("\n<script>\n    window.RESULTS_FILENAME = \x27reports/" ++ proj.uuid ++
     "/latest/results.js\x27;\n    window.PROJECT_ID = \x27" ++ proj.uuid ++
     "\x27;\n    window.CAULDRON_VERSION = \x27" ++ env.version ++
     "\x27;\n</script>\n")

/-- `write_baked_html_file(project, template_path, ...)`: read the template
(raising when absent), substitute the export marker with the baked script,
and write the result under the destination directory (defaulting to the
template's directory) and filename (defaulting to `<uuid>.html`). -/
def write_baked_html_file (env : Env) (proj : Project) (template_path : String)
    (destination_directory destination_filename : Option String) (w : World) :
    Except Unit World := do
  let dom ← readTextE w template_path
  let dom := strReplace dom "<!-- CAULDRON:EXPORT -->" (baked_script env proj)
  let dd := match destination_directory with
    | some d => if d = "" then dirname template_path else d
    | none => dirname template_path
  let fn := match destination_filename with
    | some f => if f = "" then proj.uuid ++ ".html" else f
    | none => proj.uuid ++ ".html"
  .ok (writeTextW w (osJoin dd fn) dom)

/-- `copy_assets(project)`: mirror the project's `assets` directory into the
output tree when present, returning whether anything was copied. -/
def copy_assets (proj : Project) (w : World) : Except Unit (Bool × World) :=
  let directory := osJoin proj.source_directory "assets"
  if !pathExists w.fs directory then .ok (false, w)
  else do
    let w ← copytreeE w directory (osJoin proj.output_directory "assets")
    .ok (true, w)

/-- `write_project(project)`: clear and recreate the output directory,
resolve project-level web includes, drive `write_step` over every step in
order, write the aggregate results document (the rendered template embedding
the serialized payload), copy static assets, and bake the HTML shell. -/
def write_project (env : Env) (proj : Project) (w : World) :
    Except Unit World := do
  let w := systems_remove w proj.output_directory
  let w := mkdirsW w proj.output_directory
  let (web_includes, w) ← add_web_includes proj.web_includes_setting proj w
  let (steps, w) ← proj.steps.foldlM
    (fun acc step => do
      let (r, w) ← write_step env proj step acc.2
      .ok (acc.1 ++ [r], w))
    (([] : List Json), w)
  let payload : Json := .obj
    [("steps", .arr steps),
     ("includes", .arr (web_includes.map WebInclude.toJson)),
     ("settings", .obj proj.settings),
     ("cauldron_version", .arr (env.version_info.map Json.num))]
  let w := writeTextW w proj.output_path
    (env.render_template "report.js.template" payload)
  let (_, w) ← copy_assets proj w
  write_baked_html_file env proj (osJoin proj.results_path "project.html")
    none (some "display.html") w

/-- The slot stored under `k` when `j` is a record (object); `none`
otherwise.  A decidable observation used to compare records. -/
def jsonField (j : Json) (k : String) : Option Json :=
  match j with
  | .obj kvs => lookupKey kvs k
  | _ => none

/-- Relation between an input and an output world: the output's trace
extends the input's by some event list `es`, and every file present in the
output either was already present in the input or was created by one of the
new events.  This is the frame property every operation of the module
satisfies. -/
def TraceOk (w w2 : World) : Prop :=
  ∃ es, w2.trace = es ++ w.trace ∧
    ∀ p, p ∈ filePaths w2.fs → p ∈ filePaths w.fs ∨ p ∈ writesIn es

/-! ### Concrete fixtures used by witnesses and counterexamples -/

/-- A minimal environment: both optional visualization libraries fail to
import, templating and reformatting are trivial collaborators. -/
def fixEnv : Env := {
  version_info := [0, 1, 2], version := "vX", resources_root := "/rsrc",
  bokehImport := none, plotlyImport := none,
  render_template := (fun _ _ => "RENDERED"), reformat := (fun s => s) }

/-- Environment in which the plotly import succeeds. -/
def fixEnvP : Env := { fixEnv with plotlyImport := some (some ⟨"/plotlylib"⟩) }

/-- Environment in which both special-cased libraries load successfully. -/
def fixEnvBP : Env := {
  fixEnv with
  bokehImport := some (some ⟨["/bk/a.css", "/bk/b.css"], ["/bk/a.js"]⟩),
  plotlyImport := some (some ⟨"/plotlylib"⟩) }

/-- A report whose cache artifact lives at `/res/cache/s1.json`. -/
def fixReport : Report := {
  data := [], files := [], library_includes := [],
  results_cache_path := "/res/cache/s1.json" }

/-- A quiescent step: not modified, not erroring, not muted, no dom cached. -/
def fixStep : ProjectStep := {
  definition := ⟨"s1"⟩, status := .obj [("st", .str "ok")], error := false,
  last_modified := false, is_muted := false, is_running := false,
  dom := some "<p>d</p>", dumpsVal := "<p>fresh</p>", web_includes := [],
  report := fixReport }

/-- A project with no steps and no declared includes. -/
def fixProj : Project := {
  source_directory := "/src", output_directory := "/out",
  output_path := "/out/results.js", results_path := "/res", uuid := "u1",
  steps := [], settings := [("a", .num 1)], web_includes_setting := [] }

/-- A truthy cached record (a non-empty JSON object). -/
def fixCachedJson : Json := .obj [("x", .num 1)]

/-- World holding a valid, truthy cache artifact for `fixStep`. -/
def fixWorldCache : World := {
  fs := { files := [("/res/cache/s1.json", .json fixCachedJson)],
          dirs := ["/", "/res", "/res/cache", "/src", "/out"] },
  trace := [] }

/-- World holding a cache artifact that parses to the falsy empty object. -/
def fixWorldFalsyCache : World := {
  fs := { files := [("/res/cache/s1.json", .json (.obj []))],
          dirs := ["/", "/res", "/res/cache", "/src", "/out"] },
  trace := [] }

/-- World with no cache artifact at all. -/
def fixWorldNoCache : World := {
  fs := { files := [], dirs := ["/", "/res", "/src", "/out"] },
  trace := [] }

/-- The muted step with an otherwise valid cache (claim C1's probe). -/
def mutedStep : ProjectStep := { fixStep with is_muted := true }

/-- A muted step that is also erroring (claim C2's probe). -/
def mutedErrorStep : ProjectStep := { fixStep with is_muted := true, error := true }

/-- A non-muted, modified step (claim C2's witness). -/
def modifiedStep : ProjectStep := { fixStep with last_modified := true }

/-- A step whose report declares an empty (falsy) cache path. -/
def noCachePathStep : ProjectStep := {
  fixStep with report := { fixReport with results_cache_path := "" } }

/-- World for the plotly fixtures: the library's single asset file exists. -/
def fixWorldPlotly : World := {
  fs := { files := [("/plotlylib/plotly.min.js", .text "JS")],
          dirs := ["/", "/out", "/plotlylib"] },
  trace := [] }

/-- World for the combined bokeh-and-plotly witness: all bokeh resource
files and the plotly asset exist. -/
def fixWorldBP : World := {
  fs := { files := [("/bk/a.css", .text "A"), ("/bk/b.css", .text "B"),
                    ("/bk/a.js", .text "J"),
                    ("/plotlylib/plotly.min.js", .text "JS")],
          dirs := ["/", "/out", "/bk", "/plotlylib"] },
  trace := [] }

/-- World with a declared include directory `inc` holding one file inside a
subdirectory (one file, one directory: two filesystem entries). -/
def fixWorldIncludeDir : World := {
  fs := { files := [("/src/inc/sub/a.css", .text "c")],
          dirs := ["/", "/src", "/src/inc", "/src/inc/sub", "/out"] },
  trace := [] }

/-- World for the full-write witness: only the HTML template exists. -/
def fixWorldBundle : World := {
  fs := { files := [("/res/project.html", .text "T <!-- CAULDRON:EXPORT --> B")],
          dirs := ["/", "/res", "/src"] },
  trace := [] }

/-- The world produced by copying the plotly asset in the combined
bokeh-and-plotly fixture. -/
def fixWorldBPPlotlyOut : World :=
  match copy_files [("components/plotly/plotly.min.js",
      osJoin (paths_clean "/plotlylib") "plotly.min.js")] fixProj fixWorldBP with
  | .ok w => w
  | .error _ => fixWorldBP

/-- The world produced by the full-write witness run. -/
def fixWorldBundleOut : World :=
  match write_project fixEnv fixProj fixWorldBundle with
  | .ok w => w
  | .error _ => fixWorldBundle

/-! ### Helper lemmas -/

theorem pathExists_of_lookup {fs : FileSystem} {p : String} {c : FileContent}
    (h : lookupFile fs p = some c) : pathExists fs p = true := by
  unfold lookupFile at h
  unfold pathExists
  cases hf : fs.files.find? (fun e => e.1 == p) with
  | none => rw [hf] at h; simp at h
  | some e =>
    have hmem := List.mem_of_find?_eq_some hf
    have hp := List.find?_some hf
    simp only [Bool.or_eq_true, List.any_eq_true]
    exact Or.inl ⟨e, hmem, hp⟩

theorem get_cached_some {w : World} {step : ProjectStep} {j : Json}
    (hf : lookupFile w.fs step.report.results_cache_path = some (.json j)) :
    get_cached_step_data w step = some j := by
  simp [get_cached_step_data, pathExists_of_lookup hf, hf]

theorem get_cached_none {w : World} {step : ProjectStep}
    (h : ∀ j, lookupFile w.fs step.report.results_cache_path ≠ some (.json j)) :
    get_cached_step_data w step = none := by
  unfold get_cached_step_data
  cases hex : pathExists w.fs step.report.results_cache_path with
  | false => simp
  | true =>
    simp only [Bool.not_true]
    cases hl : lookupFile w.fs step.report.results_cache_path with
    | none => simp [hl]
    | some c =>
      cases c with
      | text s => simp [hl]
      | json j => exact absurd hl (h j)

theorem lookupFile_setFile_self (fs : FileSystem) (p : String)
    (c : FileContent) : lookupFile (setFile fs p c) p = some c := by
  simp [lookupFile, setFile, List.find?_cons]

theorem contains_foldl_addDir (l : List String) :
    ∀ (ds : List String) (a : String), a ∈ l ∨ ds.contains a = true →
      (l.foldl addDir ds).contains a = true := by
  induction l with
  | nil =>
    intro ds a h
    cases h with
    | inl h => cases h
    | inr h => simpa using h
  | cons x xs ih =>
    intro ds a h
    simp only [List.foldl_cons]
    apply ih
    cases h with
    | inl h =>
      rcases List.mem_cons.mp h with h1 | h1
      · right
        subst h1
        unfold addDir
        split
        · assumption
        · simp
      · left; exact h1
    | inr h =>
      right
      unfold addDir
      split
      · exact h
      · simp only [List.contains_cons, Bool.or_eq_true]
        exact Or.inr h

/-! ### Claim C1 -/

/-- Claim C1 (amended): for every muted step, `write_step` performs zero
file writes and zero cache writes — the returned world is exactly the input
world, trace included — and returns the skeleton record unless the cache
gate hit first (the step unmodified, non-erroring, and a truthy cached
artifact present), in which case the cached record is returned instead. -/
theorem write_step_muted (env : Env) (proj : Project) (step : ProjectStep)
    (w : World) (h : step.is_muted = true) :
    (∃ out, write_step env proj step w = .ok (out, w)) ∧
    (optTruthy (if step.last_modified || step.error then none
        else get_cached_step_data w step) = false →
      write_step env proj step w = .ok (create_step_data env step, w)) ∧
    (∀ j, (step.last_modified || step.error) = false →
      get_cached_step_data w step = some j → j.truthy = true →
      write_step env proj step w = .ok (j, w)) := by
  refine ⟨?_, ?_, ?_⟩
  · cases hd : step.last_modified || step.error with
    | true =>
      exact ⟨create_step_data env step, by simp [write_step, hd, h, optTruthy]⟩
    | false =>
      cases hc : get_cached_step_data w step with
      | none =>
        exact ⟨create_step_data env step,
          by simp [write_step, hd, hc, h, optTruthy]⟩
      | some j =>
        cases ht : j.truthy with
        | false =>
          exact ⟨create_step_data env step,
            by simp [write_step, hd, hc, ht, h, optTruthy]⟩
        | true =>
          exact ⟨j, by simp [write_step, hd, hc, ht, optTruthy]⟩
  · intro hb
    cases hd : step.last_modified || step.error with
    | true => simp [write_step, hd, h, optTruthy]
    | false =>
      rw [hd] at hb
      simp only [Bool.false_eq_true, if_false] at hb
      cases hc : get_cached_step_data w step with
      | none => simp [write_step, hd, hc, h, optTruthy]
      | some j =>
        rw [hc] at hb
        simp only [optTruthy] at hb
        simp [write_step, hd, hc, h, optTruthy, hb]
  · intro j hd hc ht
    simp [write_step, hd, hc, optTruthy, ht]

/-- Witness for C1's amended theorem: a concrete muted step with no cache
artifact performs no writes and yields the skeleton record. -/
theorem write_step_muted_witness :
    mutedStep.is_muted = true ∧
    write_step fixEnv fixProj mutedStep fixWorldNoCache =
      .ok (create_step_data fixEnv mutedStep, fixWorldNoCache) :=
  ⟨rfl, (write_step_muted fixEnv fixProj mutedStep fixWorldNoCache
    rfl).2.1 rfl⟩

/-- Counterexample to claim C1 as stated: a muted step with
`last_modified = false`, `error = false` and a valid truthy cache artifact
returns the cached record, not the skeleton — the cache check precedes the
muted check in `write_step`. -/
theorem write_step_muted_counterexample :
    mutedStep.is_muted = true ∧
    mutedStep.last_modified = false ∧
    mutedStep.error = false ∧
    lookupFile fixWorldCache.fs mutedStep.report.results_cache_path =
      some (.json fixCachedJson) ∧
    write_step fixEnv fixProj mutedStep fixWorldCache =
      .ok (fixCachedJson, fixWorldCache) ∧
    write_step fixEnv fixProj mutedStep fixWorldCache ≠
      .ok (create_step_data fixEnv mutedStep, fixWorldCache) := by
  refine ⟨rfl, rfl, rfl, rfl, rfl, fun hcontra => ?_⟩
  have h0 : write_step fixEnv fixProj mutedStep fixWorldCache =
      .ok (fixCachedJson, fixWorldCache) := rfl
  have h2 : (Except.ok (fixCachedJson, fixWorldCache) :
      Except Unit (Json × World)) =
      .ok (create_step_data fixEnv mutedStep, fixWorldCache) :=
    h0.symm.trans hcontra
  have h3 := congrArg
    (fun e : Except Unit (Json × World) =>
      e.toOption.map (fun r => Json.keys r.1)) h2
  simp only [Except.toOption, Option.map_some] at h3
  have h4 : Json.keys fixCachedJson =
      Json.keys (create_step_data fixEnv mutedStep) := by
    injection h3 with h5
  exact absurd h4 (by decide)

/-! ### Claim C2 -/

/-- Claim C2 (amended): for every non-muted step with `last_modified` or
`error` set, `write_step` bypasses the cache — the cached value is never
consulted, whatever the prior cache state `w` holds — and recomputes the
record via the composer `populate_step_data`, then writes the report's files
and persists the new record. -/
theorem write_step_recompute_on_dirty (env : Env) (proj : Project)
    (step : ProjectStep) (w : World)
    (hm : step.is_muted = false)
    (h : (step.last_modified || step.error) = true) :
    write_step env proj step w = (do
      let (out, w) ← populate_step_data env proj step none w
      let w := write_files step.report.files proj w
      let (_, w) := write_step_cache w step out
      Except.ok (out, w)) := by
  unfold write_step
  simp [h, hm, optTruthy]

/-- Witness for C2's amended theorem: a concrete modified, non-muted step in
a world that even holds a valid truthy cache artifact. -/
theorem write_step_recompute_on_dirty_witness :
    modifiedStep.is_muted = false ∧
    (modifiedStep.last_modified || modifiedStep.error) = true ∧
    write_step fixEnv fixProj modifiedStep fixWorldCache = (do
      let (out, w) ← populate_step_data fixEnv fixProj modifiedStep none
        fixWorldCache
      let w := write_files modifiedStep.report.files fixProj w
      let (_, w) := write_step_cache w modifiedStep out
      Except.ok (out, w)) :=
  ⟨rfl, rfl, write_step_recompute_on_dirty fixEnv fixProj modifiedStep
    fixWorldCache rfl rfl⟩

/-- Counterexample to claim C2 as stated: a muted step with `error = true`
(and a valid cache artifact present) is not recomputed via the composer —
`write_step` returns the fresh skeleton, whose `has_error` slot is `false`,
while the composer would produce `has_error = true`. -/
theorem write_step_dirty_counterexample :
    (mutedErrorStep.last_modified || mutedErrorStep.error) = true ∧
    write_step fixEnv fixProj mutedErrorStep fixWorldCache =
      .ok (create_step_data fixEnv mutedErrorStep, fixWorldCache) ∧
    (write_step fixEnv fixProj mutedErrorStep fixWorldCache).toOption.map
      (fun r => (jsonField r.1 "has_error").map Json.truthy) =
      some (some false) ∧
    (populate_step_data fixEnv fixProj mutedErrorStep none
        fixWorldCache).toOption.map
      (fun r => (jsonField r.1 "has_error").map Json.truthy) =
      some (some true) :=
  ⟨rfl, rfl, rfl, rfl⟩

/-! ### Claim C3 -/

/-- Claim C3: for every step with `last_modified = false` and
`error = false` whose cache artifact exists and parses as a valid (truthy)
record, `write_step` returns exactly the cached record with the world —
filesystem and trace — unchanged: no composer invocation, no file write, no
cache write. -/
theorem write_step_cache_hit (env : Env) (proj : Project)
    (step : ProjectStep) (w : World) (j : Json)
    (hm : step.last_modified = false) (he : step.error = false)
    (hf : lookupFile w.fs step.report.results_cache_path = some (.json j))
    (ht : j.truthy = true) :
    write_step env proj step w = .ok (j, w) := by
  unfold write_step
  simp [hm, he, get_cached_some hf, optTruthy, ht]

/-- Witness for C3: a concrete quiescent step with a valid truthy cache
artifact returns the cached record unchanged. -/
theorem write_step_cache_hit_witness :
    write_step fixEnv fixProj fixStep fixWorldCache =
      .ok (fixCachedJson, fixWorldCache) :=
  write_step_cache_hit fixEnv fixProj fixStep fixWorldCache fixCachedJson
    rfl rfl rfl rfl

/-! ### Claim C4 -/

/-- Claim C4: reading the cache artifact never raises — in the model
`get_cached_step_data` is a total function into `Option Json`, mirroring the
source's catch-all `except` — and whenever no parseable artifact exists at
the step's cache path (absent file, directory in the way, or unparsable
contents), the read yields `none` and `write_step` proceeds exactly as on a
cache miss. -/
theorem cache_read_soft_miss (env : Env) (proj : Project)
    (step : ProjectStep) (w : World)
    (h : ∀ j, lookupFile w.fs step.report.results_cache_path ≠
      some (.json j)) :
    get_cached_step_data w step = none ∧
    write_step env proj step w =
      (if step.is_muted then Except.ok (create_step_data env step, w)
       else do
         let (out, w) ← populate_step_data env proj step none w
         let w := write_files step.report.files proj w
         let (_, w) := write_step_cache w step out
         Except.ok (out, w)) := by
  refine ⟨get_cached_none h, ?_⟩
  unfold write_step
  have hnone : (if step.last_modified || step.error then none
      else get_cached_step_data w step) = none := by
    cases step.last_modified || step.error <;> simp [get_cached_none h]
  rw [hnone]
  simp [optTruthy]

/-- Witness for C4: with no cache artifact at all, the read yields `none`
and the quiescent step proceeds to the compute path. -/
theorem cache_read_soft_miss_witness :
    get_cached_step_data fixWorldNoCache fixStep = none ∧
    write_step fixEnv fixProj fixStep fixWorldNoCache =
      (if fixStep.is_muted
       then Except.ok (create_step_data fixEnv fixStep, fixWorldNoCache)
       else do
         let (out, w) ← populate_step_data fixEnv fixProj fixStep none
           fixWorldNoCache
         let w := write_files fixStep.report.files fixProj w
         let (_, w) := write_step_cache w fixStep out
         Except.ok (out, w)) :=
  cache_read_soft_miss fixEnv fixProj fixStep fixWorldNoCache
    (fun _ hj => Option.noConfusion hj)

/-! ### Claim C9 -/

/-- Claim C9: a cache artifact that exists and parses successfully but
yields a falsy value (empty object, `null`, `false`, ...) is treated as a
cache miss — `get_cached_step_data` returns the parsed value, but
`write_step`'s truthiness test rejects it and the step is recomputed. -/
theorem falsy_cache_recomputes (env : Env) (proj : Project)
    (step : ProjectStep) (w : World) (j : Json)
    (hm : step.last_modified = false) (he : step.error = false)
    (hf : lookupFile w.fs step.report.results_cache_path = some (.json j))
    (ht : j.truthy = false) :
    get_cached_step_data w step = some j ∧
    write_step env proj step w =
      (if step.is_muted then Except.ok (create_step_data env step, w)
       else do
         let (out, w) ← populate_step_data env proj step none w
         let w := write_files step.report.files proj w
         let (_, w) := write_step_cache w step out
         Except.ok (out, w)) := by
  refine ⟨get_cached_some hf, ?_⟩
  unfold write_step
  simp [hm, he, get_cached_some hf, optTruthy, ht]

/-- Witness for C9: an artifact parsing to the empty JSON object is present
yet the quiescent step proceeds to the compute path. -/
theorem falsy_cache_recomputes_witness :
    get_cached_step_data fixWorldFalsyCache fixStep = some (.obj []) ∧
    write_step fixEnv fixProj fixStep fixWorldFalsyCache =
      (if fixStep.is_muted
       then Except.ok (create_step_data fixEnv fixStep, fixWorldFalsyCache)
       else do
         let (out, w) ← populate_step_data fixEnv fixProj fixStep none
           fixWorldFalsyCache
         let w := write_files fixStep.report.files fixProj w
         let (_, w) := write_step_cache w fixStep out
         Except.ok (out, w)) :=
  falsy_cache_recomputes fixEnv fixProj fixStep fixWorldFalsyCache (.obj [])
    rfl rfl rfl rfl

/-! ### Claim C10 -/

/-- Claim C10: with an empty (falsy) results cache path, `write_step_cache`
writes nothing and returns `false` with the world untouched; with a
non-empty path it returns `true`, the record is stored at the path, and any
missing parent directories are created. -/
theorem write_step_cache_spec (w : World) (step : ProjectStep) (data : Json) :
    (step.report.results_cache_path = "" →
      write_step_cache w step data = (false, w)) ∧
    (step.report.results_cache_path ≠ "" →
      (write_step_cache w step data).1 = true ∧
      lookupFile (write_step_cache w step data).2.fs
        step.report.results_cache_path = some (.json data) ∧
      (pathExists w.fs (dirname step.report.results_cache_path) = false →
        ∀ d ∈ pathPrefixes (dirname step.report.results_cache_path),
          (write_step_cache w step data).2.fs.dirs.contains d = true)) := by
  constructor
  · intro h
    unfold write_step_cache
    rw [if_pos h]
  · intro h
    unfold write_step_cache
    rw [if_neg h]
    refine ⟨rfl, lookupFile_setFile_self _ _ _, ?_⟩
    intro hex d hd
    unfold ensureDirW
    rw [hex]
    simp only [Bool.false_eq_true, if_false, setFile, mkdirsW]
    exact contains_foldl_addDir _ _ _ (Or.inl hd)

/-- Witness for C10: the empty-path step is never cached (result `false`,
world unchanged); a concrete non-empty path gets its parent directories
created and the record stored. -/
theorem write_step_cache_spec_witness :
    write_step_cache fixWorldNoCache noCachePathStep fixCachedJson =
      (false, fixWorldNoCache) ∧
    (write_step_cache fixWorldNoCache fixStep fixCachedJson).1 = true ∧
    lookupFile (write_step_cache fixWorldNoCache fixStep
      fixCachedJson).2.fs "/res/cache/s1.json" = some (.json fixCachedJson) :=
  ⟨(write_step_cache_spec fixWorldNoCache noCachePathStep fixCachedJson).1 rfl,
   ((write_step_cache_spec fixWorldNoCache fixStep fixCachedJson).2
     (by decide)).1,
   ((write_step_cache_spec fixWorldNoCache fixStep fixCachedJson).2
     (by decide)).2.1⟩

/-! ### Claim C7 -/

/-- Claim C7: duplicate library-include requests within one step resolve
exactly once — `add_components` produces the same WebIncludes and the same
world effects for a request list with duplicates as for its deduplicated
set, and the list of resolution passes it performs is duplicate-free. -/
theorem add_components_dedup_requests (env : Env) (proj : Project)
    (step : ProjectStep) (w : World) :
    add_components env proj step w =
      add_components env proj
        { step with report := { step.report with
            library_includes := step.report.library_includes.dedup } } w ∧
    step.report.library_includes.dedup.Nodup := by
  constructor
  · unfold add_components
    simp [List.dedup_idem]
  · exact List.nodup_dedup _

/-! ### Claim C5 -/

theorem exceptBind_ok {α β : Type} (a : α) (f : α → Except Unit β) :
    (Except.ok a >>= f : Except Unit β) = f a := rfl

theorem exceptBind_error {α β : Type} (f : α → Except Unit β) :
    (Except.error () >>= f : Except Unit β) = .error () := rfl

/-- Claim C5 (amended): when bokeh loads successfully, the resolver
concatenates all its CSS resources into one combined `bokeh/bokeh.css` and
all its JS resources into one combined `bokeh/bokeh.js` under the `bokeh`
subdirectory of the output tree and contributes exactly one css and one js
WebInclude.  When plotly loads successfully, the resolver instead copies the
library's single `plotly.min.js` into `components/plotly/` and contributes
exactly one (js) WebInclude — no CSS file and no css WebInclude. -/
theorem special_library_assets (env : Env) (proj : Project) (w : World)
    (br : BokehResources) (po : PlotlyOffline)
    (cs js : List String) (w2 : World)
    (hb : env.bokehImport = some (some br))
    (hcs : br.css_files.mapM (fun p => readTextE w p) = .ok cs)
    (hjs : br.js_files.mapM (fun p => readTextE w p) = .ok js)
    (hp : env.plotlyImport = some (some po))
    (hcopy : copy_files [("components/plotly/plotly.min.js",
        osJoin (paths_clean po.file_dir) "plotly.min.js")] proj w = .ok w2) :
    add_bokeh env proj w = .ok
      ([{ name := "bokeh-css", src := "/bokeh/bokeh.css" },
        { name := "bokeh-js", src := "/bokeh/bokeh.js" }],
       write_files [("bokeh/bokeh.css", String.intercalate "\n" cs),
                    ("bokeh/bokeh.js", String.intercalate "\n" js)] proj w) ∧
    add_plotly env proj w = .ok
      ([{ name := "plotly", src := "/components/plotly/plotly.min.js" }],
       w2) := by
  constructor
  · simp only [add_bokeh, hb, hcs, hjs, exceptBind_ok]
  · simp only [add_plotly, hp, hcopy, exceptBind_ok]
    rfl

/-- Witness for C5's amended theorem: a concrete environment in which both
libraries load and all their resource files exist. -/
theorem special_library_assets_witness :
    add_bokeh fixEnvBP fixProj fixWorldBP = .ok
      ([{ name := "bokeh-css", src := "/bokeh/bokeh.css" },
        { name := "bokeh-js", src := "/bokeh/bokeh.js" }],
       write_files [("bokeh/bokeh.css", String.intercalate "\n" ["A", "B"]),
                    ("bokeh/bokeh.js", String.intercalate "\n" ["J"])]
         fixProj fixWorldBP) ∧
    add_plotly fixEnvBP fixProj fixWorldBP = .ok
      ([{ name := "plotly", src := "/components/plotly/plotly.min.js" }],
       fixWorldBPPlotlyOut) :=
  special_library_assets fixEnvBP fixProj fixWorldBP
    ⟨["/bk/a.css", "/bk/b.css"], ["/bk/a.js"]⟩ ⟨"/plotlylib"⟩
    ["A", "B"] ["J"] fixWorldBPPlotlyOut rfl rfl rfl rfl rfl

/-- Counterexample to claim C5 as stated: with plotly loading successfully,
the resolver contributes exactly one WebInclude in total — a js one — and
zero css WebIncludes, not one WebInclude per asset type. -/
theorem special_library_assets_counterexample :
    fixEnvP.plotlyImport = some (some ⟨"/plotlylib"⟩) ∧
    (add_plotly fixEnvP fixProj fixWorldPlotly).toOption.map
      (fun r => (r.1.length,
        (r.1.filter (fun i => strEndsWith i.src ".css")).length,
        (r.1.filter (fun i => strEndsWith i.src ".js")).length)) =
      some (1, 0, 1) :=
  ⟨rfl, rfl⟩

/-! ### Claim C6 -/

theorem contains_foldl_addDir_false (l : List String) :
    ∀ (ds : List String) (a : String), ¬ a ∈ l → ds.contains a = false →
      (l.foldl addDir ds).contains a = false := by
  induction l with
  | nil => intro ds a _ h; simpa using h
  | cons x xs ih =>
    intro ds a hnm h
    simp only [List.foldl_cons]
    refine ih _ _ (fun hm => hnm (List.mem_cons_of_mem _ hm)) ?_
    unfold addDir
    split
    · exact h
    · have hax : ¬ a = x := fun he => hnm (he ▸ List.mem_cons_self _ _)
      simp only [List.contains_cons, Bool.or_eq_false_iff]
      exact ⟨by simpa using hax, h⟩

theorem ensureDir_files (w : World) (d : String) :
    (ensureDirW w d).fs.files = w.fs.files := by
  unfold ensureDirW mkdirsW
  split <;> rfl

theorem ensureDir_contains {w : World} {d a : String}
    (h : w.fs.dirs.contains a = true) :
    (ensureDirW w d).fs.dirs.contains a = true := by
  unfold ensureDirW mkdirsW
  split
  · exact h
  · exact contains_foldl_addDir _ _ _ (Or.inr h)

theorem pathExists_ensureDir_false {w : World} {d a : String}
    (h : pathExists w.fs a = false) (h2 : ¬ a ∈ pathPrefixes d) :
    pathExists (ensureDirW w d).fs a = false := by
  unfold pathExists at h ⊢
  rw [ensureDir_files]
  rcases Bool.or_eq_false_iff.mp h with ⟨hf, hd⟩
  rw [hf]
  unfold ensureDirW mkdirsW
  split
  · simpa using hd
  · simpa using contains_foldl_addDir_false _ _ _ h2 hd

theorem copytreeE_ok {w : World} {src dst : String}
    (hdst : pathExists w.fs dst = false)
    (hsrc : w.fs.dirs.contains src = true) :
    copytreeE w src dst = .ok {
      fs := { files := (w.fs.files.filter (fun e => underDir src e.1)).map
                (fun e => (dst ++ e.1.drop src.length, e.2)) ++ w.fs.files,
              dirs := (dst :: (w.fs.dirs.filter (fun d => underDir src d)).map
                (fun d => dst ++ d.drop src.length)) ++ w.fs.dirs },
      trace := .treeCopy src dst
        (((w.fs.files.filter (fun e => underDir src e.1)).map
          (fun e => (dst ++ e.1.drop src.length, e.2))).map Prod.fst) ::
        w.trace } := by
  unfold copytreeE
  rw [hdst, hsrc]
  rfl

/-- Claim C6 (amended): for a declared project-level include path that is a
directory, `add_web_includes` copies the tree and contributes exactly one
WebInclude per filesystem entry found recursively in the copied tree by the
recursive glob — files and directories alike, not only files — each path
rooted at the output directory with host path separators normalized to
`/`. -/
theorem include_dir_one_per_entry (proj : Project) (item : String) (w : World)
    (h1 : isDir w.fs (paths_clean (osJoin proj.source_directory item)) = true)
    (h2 : pathExists w.fs (osJoin proj.output_directory item) = false)
    (h3 : ¬ osJoin proj.output_directory item ∈
      pathPrefixes (dirname (osJoin proj.output_directory item))) :
    ∃ wc,
      copytreeE (ensureDirW w (dirname (osJoin proj.output_directory item)))
        (paths_clean (osJoin proj.source_directory item))
        (osJoin proj.output_directory item) = .ok wc ∧
      add_web_includes [item] proj w = .ok
        ((globStar wc.fs (osJoin proj.output_directory item)).map
          (fun entry =>
            { name := ":project:" ++
                charReplace BSL '/' (entry.drop proj.output_directory.length),
              src :=
                charReplace BSL '/' (entry.drop proj.output_directory.length) }),
         wc) := by
  have hsp : pathExists w.fs
      (paths_clean (osJoin proj.source_directory item)) = true := by
    unfold pathExists
    rw [Bool.or_eq_true]
    exact Or.inr h1
  have hsp2 : (ensureDirW w
      (dirname (osJoin proj.output_directory item))).fs.dirs.contains
      (paths_clean (osJoin proj.source_directory item)) = true :=
    ensureDir_contains h1
  have hip2 : pathExists (ensureDirW w
      (dirname (osJoin proj.output_directory item))).fs
      (osJoin proj.output_directory item) = false :=
    pathExists_ensureDir_false h2 h3
  refine ⟨_, copytreeE_ok hip2 hsp2, ?_⟩
  unfold add_web_includes
  simp only [List.foldlM_cons, List.foldlM_nil, hsp, Bool.not_true,
    Bool.false_eq_true, if_false, isDir, hsp2, if_true,
    copytreeE_ok hip2 hsp2, exceptBind_ok, pure_bind, List.nil_append,
    List.map_map]
  rfl

/-- Witness for C6's amended theorem: the concrete include directory with
one file inside a subdirectory. -/
theorem include_dir_one_per_entry_witness :
    ∃ wc,
      copytreeE (ensureDirW fixWorldIncludeDir
          (dirname (osJoin fixProj.output_directory "inc")))
        (paths_clean (osJoin fixProj.source_directory "inc"))
        (osJoin fixProj.output_directory "inc") = .ok wc ∧
      add_web_includes ["inc"] fixProj fixWorldIncludeDir = .ok
        ((globStar wc.fs (osJoin fixProj.output_directory "inc")).map
          (fun entry =>
            { name := ":project:" ++
                charReplace BSL '/' (entry.drop fixProj.output_directory.length),
              src :=
                charReplace BSL '/' (entry.drop fixProj.output_directory.length) }),
         wc) :=
  include_dir_one_per_entry fixProj "inc" fixWorldIncludeDir rfl rfl
    (by decide)

/-- Counterexample to claim C6 as stated: a declared include directory
containing exactly one file (inside a subdirectory) contributes two
WebIncludes, one of which points at the subdirectory itself — the glob has
no file filter, so directories are counted too. -/
theorem include_dir_counterexample :
    isDir fixWorldIncludeDir.fs "/src/inc" = true ∧
    (fixWorldIncludeDir.fs.files.filter
      (fun e => underDir "/src/inc" e.1)).length = 1 ∧
    (add_web_includes ["inc"] fixProj fixWorldIncludeDir).toOption.map
      (fun r => r.1.map (fun i => i.src)) =
      some ["/inc/sub/a.css", "/inc/sub"] ∧
    (add_web_includes ["inc"] fixProj fixWorldIncludeDir).toOption.map
      (fun r => r.1.length) = some 2 :=
  ⟨rfl, rfl, rfl, rfl⟩

/-! ### Claim C8: frame lemmas

Every operation of the module only creates files it logs: the output world's
trace extends the input's, and any file present afterwards was either
already present or is recorded in the new events (`TraceOk`). -/

theorem exceptBind_err {α β : Type} (e : Unit) (f : α → Except Unit β) :
    (Except.error e >>= f : Except Unit β) = .error e := rfl

theorem bind_ok_inv {α β : Type} {ea : Except Unit α} {f : α → Except Unit β}
    {b : β} (h : (ea >>= f) = .ok b) : ∃ a, ea = .ok a ∧ f a = .ok b := by
  cases ea with
  | error e => rw [exceptBind_err] at h; exact absurd h (by simp)
  | ok a => exact ⟨a, rfl, by rwa [exceptBind_ok] at h⟩

theorem writesIn_append (a b : List Event) :
    writesIn (a ++ b) = writesIn a ++ writesIn b := by
  simp [writesIn]

theorem traceOk_refl (w : World) : TraceOk w w :=
  ⟨[], rfl, fun _ hp => Or.inl hp⟩

theorem traceOk_trans {w1 w2 w3 : World} (h12 : TraceOk w1 w2)
    (h23 : TraceOk w2 w3) : TraceOk w1 w3 := by
  obtain ⟨ea, hta, hfa⟩ := h12
  obtain ⟨eb, htb, hfb⟩ := h23
  refine ⟨eb ++ ea, ?_, ?_⟩
  · rw [htb, hta, List.append_assoc]
  · intro p hp
    rcases hfb p hp with h | h
    · rcases hfa p h with h2 | h2
      · exact Or.inl h2
      · exact Or.inr (by rw [writesIn_append]; exact List.mem_append_right _ h2)
    · exact Or.inr (by rw [writesIn_append]; exact List.mem_append_left _ h)

theorem mem_filePaths_setFile {fs : FileSystem} {p q : String}
    {c : FileContent} (h : q ∈ filePaths (setFile fs p c)) :
    q = p ∨ q ∈ filePaths fs := by
  simp only [filePaths, setFile, List.map_cons, List.mem_cons] at h
  rcases h with h | h
  · exact Or.inl h
  · right
    rw [List.mem_map] at h
    obtain ⟨e, he, hq⟩ := h
    exact List.mem_map.mpr ⟨e, (List.mem_filter.mp he).1, hq⟩

theorem traceOk_writeTextW (w : World) (p s : String) :
    TraceOk w (writeTextW w p s) := by
  refine ⟨[.fileWrite p], rfl, ?_⟩
  intro q hq
  rcases mem_filePaths_setFile hq with h | h
  · exact Or.inr (by simp [writesIn, Event.writes, h])
  · exact Or.inl h

theorem traceOk_mkdirsW (w : World) (p : String) : TraceOk w (mkdirsW w p) :=
  ⟨[.makeDirs p], rfl, fun _ hq => Or.inl hq⟩

theorem traceOk_ensureDirW (w : World) (d : String) :
    TraceOk w (ensureDirW w d) := by
  unfold ensureDirW
  split
  · exact traceOk_refl w
  · exact traceOk_mkdirsW w d

theorem traceOk_logW (w : World) (t : String) : TraceOk w (logW w t) :=
  ⟨[.logMessage t], rfl, fun _ hq => Or.inl hq⟩

theorem traceOk_systems_remove (w : World) (p : String) :
    TraceOk w (systems_remove w p) := by
  refine ⟨[.removeTree p], rfl, ?_⟩
  intro q hq
  left
  have hq2 : q ∈ (w.fs.files.filter
      (fun e => !(e.1 == p || underDir p e.1))).map Prod.fst := hq
  rw [List.mem_map] at hq2
  obtain ⟨e, he, hqe⟩ := hq2
  exact List.mem_map.mpr ⟨e, (List.mem_filter.mp he).1, hqe⟩

theorem traceOk_write_step_cache (w : World) (step : ProjectStep)
    (d : Json) : TraceOk w (write_step_cache w step d).2 := by
  by_cases hc : step.report.results_cache_path = ""
  · simp only [write_step_cache, if_pos hc]
    exact traceOk_refl w
  · simp only [write_step_cache, if_neg hc]
    refine traceOk_trans
      (traceOk_ensureDirW w (dirname step.report.results_cache_path)) ?_
    refine ⟨[.cacheWrite step.report.results_cache_path], rfl, ?_⟩
    intro q hq
    rcases mem_filePaths_setFile hq with h | h
    · exact Or.inr (by simp [writesIn, Event.writes, h])
    · exact Or.inl h

theorem traceOk_copy2E {w w2 : World} {src dst : String}
    (h : copy2E w src dst = .ok w2) : TraceOk w w2 := by
  unfold copy2E at h
  cases hl : lookupFile w.fs src with
  | none => rw [hl] at h; exact absurd h (by simp)
  | some c =>
    rw [hl] at h
    injection h with h2
    subst h2
    refine ⟨[.fileCopy src dst], rfl, ?_⟩
    intro q hq
    rcases mem_filePaths_setFile hq with h | h
    · exact Or.inr (by simp [writesIn, Event.writes, h])
    · exact Or.inl h

theorem traceOk_copytreeE {w w2 : World} {src dst : String}
    (h : copytreeE w src dst = .ok w2) : TraceOk w w2 := by
  unfold copytreeE at h
  split at h
  · exact absurd h (by simp)
  · split at h
    · exact absurd h (by simp)
    · injection h with h2
      subst h2
      refine ⟨[_], rfl, ?_⟩
      intro q hq
      simp only [filePaths, List.map_append, List.mem_append] at hq
      rcases hq with h | h
      · right
        simpa [writesIn, Event.writes] using h
      · exact Or.inl h

theorem traceOk_foldl {β : Type} (f : World → β → World)
    (h : ∀ w x, TraceOk w (f w x)) :
    ∀ (l : List β) (w : World), TraceOk w (l.foldl f w) := by
  intro l
  induction l with
  | nil => intro w; exact traceOk_refl w
  | cons x xs ih =>
    intro w
    rw [List.foldl_cons]
    exact traceOk_trans (h w x) (ih (f w x))

theorem traceOk_foldlM_world {β : Type} (f : World → β → Except Unit World)
    (h : ∀ w x w2, f w x = .ok w2 → TraceOk w w2) :
    ∀ (l : List β) (w w2 : World), List.foldlM f w l = .ok w2 →
      TraceOk w w2 := by
  intro l
  induction l with
  | nil =>
    intro w w2 hf
    rw [List.foldlM_nil] at hf
    rw [show (pure w : Except Unit World) = .ok w from rfl] at hf
    injection hf with h2
    subst h2
    exact traceOk_refl w
  | cons x xs ih =>
    intro w w2 hf
    rw [List.foldlM_cons] at hf
    obtain ⟨w1, hx, hrest⟩ := bind_ok_inv hf
    exact traceOk_trans (h w x w1 hx) (ih w1 w2 hrest)

theorem traceOk_foldlM_pair {α β : Type}
    (f : List α × World → β → Except Unit (List α × World))
    (h : ∀ acc x out, f acc x = .ok out → TraceOk acc.2 out.2) :
    ∀ (l : List β) (acc out : List α × World),
      List.foldlM f acc l = .ok out → TraceOk acc.2 out.2 := by
  intro l
  induction l with
  | nil =>
    intro acc out hf
    rw [List.foldlM_nil] at hf
    rw [show (pure acc : Except Unit (List α × World)) = .ok acc from rfl]
      at hf
    injection hf with h2
    subst h2
    exact traceOk_refl acc.2
  | cons x xs ih =>
    intro acc out hf
    rw [List.foldlM_cons] at hf
    obtain ⟨acc1, hx, hrest⟩ := bind_ok_inv hf
    exact traceOk_trans (h acc x acc1 hx) (ih acc1 out hrest)

theorem traceOk_write_files (fw : List (String × String)) (proj : Project)
    (w : World) : TraceOk w (write_files fw proj w) := by
  unfold write_files
  refine traceOk_foldl _ ?_ fw w
  intro w1 e
  exact traceOk_trans (traceOk_ensureDirW w1 _) (traceOk_writeTextW _ _ _)

theorem traceOk_copy_files {fc : List (String × String)} {proj : Project}
    {w w2 : World} (h : copy_files fc proj w = .ok w2) : TraceOk w w2 := by
  unfold copy_files at h
  refine traceOk_foldlM_world _ ?_ fc w w2 h
  intro w1 x w3 hx
  exact traceOk_trans (traceOk_ensureDirW w1 _) (traceOk_copy2E hx)

theorem traceOk_add_bokeh {env : Env} {proj : Project} {w : World}
    {incs : List WebInclude} {w2 : World}
    (h : add_bokeh env proj w = .ok (incs, w2)) : TraceOk w w2 := by
  unfold add_bokeh at h
  cases hb : env.bokehImport with
  | none =>
    rw [hb] at h
    simp only [Except.ok.injEq, Prod.mk.injEq] at h
    rw [← h.2]
    exact traceOk_refl w
  | some o =>
    rw [hb] at h
    cases o with
    | none =>
      simp only [Except.ok.injEq, Prod.mk.injEq] at h
      rw [← h.2]
      exact traceOk_logW w _
    | some br =>
      obtain ⟨cs, hcs, h⟩ := bind_ok_inv h
      obtain ⟨js, hjs, h⟩ := bind_ok_inv h
      simp only [Except.ok.injEq, Prod.mk.injEq] at h
      rw [← h.2]
      exact traceOk_write_files _ proj w

theorem traceOk_add_plotly {env : Env} {proj : Project} {w : World}
    {incs : List WebInclude} {w2 : World}
    (h : add_plotly env proj w = .ok (incs, w2)) : TraceOk w w2 := by
  unfold add_plotly at h
  cases hp : env.plotlyImport with
  | none =>
    rw [hp] at h
    simp only [Except.ok.injEq, Prod.mk.injEq] at h
    rw [← h.2]
    exact traceOk_refl w
  | some o =>
    rw [hp] at h
    cases o with
    | none =>
      simp only [Except.ok.injEq, Prod.mk.injEq] at h
      rw [← h.2]
      exact traceOk_logW w _
    | some po =>
      obtain ⟨w3, hcp, h⟩ := bind_ok_inv h
      simp only [Except.ok.injEq, Prod.mk.injEq] at h
      rw [← h.2]
      exact traceOk_copy_files hcp

theorem traceOk_add_components {env : Env} {proj : Project}
    {step : ProjectStep} {w : World} {incs : List WebInclude} {w2 : World}
    (h : add_components env proj step w = .ok (incs, w2)) : TraceOk w w2 := by
  unfold add_components at h
  have h2 := traceOk_foldlM_pair _ ?_ _ _ _ h
  · exact h2
  · intro acc x out hx
    by_cases hb : x = "bokeh"
    · rw [if_pos hb] at hx
      obtain ⟨p1, hab, hx⟩ := bind_ok_inv hx
      obtain ⟨xs, w3⟩ := p1
      simp only [Except.ok.injEq] at hx
      rw [← hx]
      exact traceOk_add_bokeh hab
    · rw [if_neg hb] at hx
      by_cases hp : x = "plotly"
      · rw [if_pos hp] at hx
        obtain ⟨p1, hap, hx⟩ := bind_ok_inv hx
        obtain ⟨xs, w3⟩ := p1
        simp only [Except.ok.injEq] at hx
        rw [← hx]
        exact traceOk_add_plotly hap
      · rw [if_neg hp] at hx
        simp only [Except.ok.injEq] at hx
        rw [← hx]
        exact traceOk_refl acc.2

theorem traceOk_add_web_includes {ips : List String} {proj : Project}
    {w : World} {incs : List WebInclude} {w2 : World}
    (h : add_web_includes ips proj w = .ok (incs, w2)) : TraceOk w w2 := by
  unfold add_web_includes at h
  obtain ⟨acc, hf, h⟩ := bind_ok_inv h
  obtain ⟨urls, wk⟩ := acc
  simp only [Except.ok.injEq, Prod.mk.injEq] at h
  rw [← h.2]
  refine traceOk_foldlM_pair _ ?_ _ _ _ hf
  intro acc1 x out hx
  dsimp only at hx
  split at hx
  · simp only [Except.ok.injEq] at hx
    rw [← hx]
    exact traceOk_refl acc1.2
  · split at hx
    · obtain ⟨w3, hct, hx⟩ := bind_ok_inv hx
      simp only [Except.ok.injEq] at hx
      rw [← hx]
      exact traceOk_trans (traceOk_ensureDirW acc1.2 _) (traceOk_copytreeE hct)
    · obtain ⟨w3, hcp, hx⟩ := bind_ok_inv hx
      simp only [Except.ok.injEq] at hx
      rw [← hx]
      exact traceOk_trans (traceOk_ensureDirW acc1.2 _) (traceOk_copy2E hcp)

theorem traceOk_populate_step_data {env : Env} {proj : Project}
    {step : ProjectStep} {src : Option (List (String × Json))} {w : World}
    {out : Json} {w2 : World}
    (h : populate_step_data env proj step src w = .ok (out, w2)) :
    TraceOk w w2 := by
  unfold populate_step_data at h
  obtain ⟨d0, hd0, h⟩ := bind_ok_inv h
  obtain ⟨i0, hi0, h⟩ := bind_ok_inv h
  obtain ⟨pA, hA, h⟩ := bind_ok_inv h
  obtain ⟨ia, wa⟩ := pA
  obtain ⟨pB, hB, h⟩ := bind_ok_inv h
  obtain ⟨ib, wb⟩ := pB
  simp only [Except.ok.injEq, Prod.mk.injEq] at h
  rw [← h.2]
  exact traceOk_trans (traceOk_add_web_includes hA) (traceOk_add_components hB)

theorem traceOk_write_step {env : Env} {proj : Project}
    {step : ProjectStep} {w : World} {out : Json} {w2 : World}
    (h : write_step env proj step w = .ok (out, w2)) : TraceOk w w2 := by
  have hit : ∀ j : Json,
      write_step env proj step w = .ok (j, w) → TraceOk w w2 := by
    intro j hj
    rw [hj] at h
    simp only [Except.ok.injEq, Prod.mk.injEq] at h
    rw [← h.2]
    exact traceOk_refl w
  have compute :
      write_step env proj step w = (do
        let (o, w3) ← populate_step_data env proj step none w
        let w4 := write_files step.report.files proj w3
        let (_, w5) := write_step_cache w4 step o
        Except.ok (o, w5)) → TraceOk w w2 := by
    intro hj
    rw [hj] at h
    obtain ⟨p1, hp, h⟩ := bind_ok_inv h
    obtain ⟨o1, w1⟩ := p1
    simp only [Except.ok.injEq, Prod.mk.injEq] at h
    rw [← h.2]
    exact traceOk_trans (traceOk_populate_step_data hp)
      (traceOk_trans (traceOk_write_files _ proj w1)
        (traceOk_write_step_cache _ step o1))
  cases hd : step.last_modified || step.error with
  | true =>
    cases hmu : step.is_muted with
    | true => exact hit (create_step_data env step) (by simp [write_step, hd, hmu, optTruthy])
    | false => exact compute (by simp [write_step, hd, hmu, optTruthy])
  | false =>
    cases hc : get_cached_step_data w step with
    | none =>
      cases hmu : step.is_muted with
      | true => exact hit (create_step_data env step) (by simp [write_step, hd, hc, hmu, optTruthy])
      | false => exact compute (by simp [write_step, hd, hc, hmu, optTruthy])
    | some j =>
      cases ht : j.truthy with
      | true => exact hit j (by simp [write_step, hd, hc, ht, optTruthy])
      | false =>
        cases hmu : step.is_muted with
        | true =>
          exact hit (create_step_data env step) (by simp [write_step, hd, hc, ht, hmu, optTruthy])
        | false =>
          exact compute (by simp [write_step, hd, hc, ht, hmu, optTruthy])

theorem traceOk_copy_assets {proj : Project} {w : World} {b : Bool}
    {w2 : World} (h : copy_assets proj w = .ok (b, w2)) : TraceOk w w2 := by
  have h2 : (if (!pathExists w.fs (osJoin proj.source_directory "assets"))
        = true
      then (Except.ok (false, w) : Except Unit (Bool × World))
      else do
        let w3 ← copytreeE w (osJoin proj.source_directory "assets")
          (osJoin proj.output_directory "assets")
        Except.ok (true, w3)) = .ok (b, w2) := h
  split at h2
  · simp only [Except.ok.injEq, Prod.mk.injEq] at h2
    rw [← h2.2]
    exact traceOk_refl w
  · obtain ⟨w3, hct, h3⟩ := bind_ok_inv h2
    simp only [Except.ok.injEq, Prod.mk.injEq] at h3
    rw [← h3.2]
    exact traceOk_copytreeE hct

theorem traceOk_write_baked_html_file {env : Env} {proj : Project}
    {tp : String} {dd fn : Option String} {w w2 : World}
    (h : write_baked_html_file env proj tp dd fn w = .ok w2) :
    TraceOk w w2 := by
  unfold write_baked_html_file at h
  obtain ⟨dom, hr, h⟩ := bind_ok_inv h
  simp only [Except.ok.injEq] at h
  rw [← h]
  exact traceOk_writeTextW w _ _

theorem not_underDir_filePaths_remove {w : World} {out p : String}
    (hp : p ∈ filePaths (systems_remove w out).fs) :
    underDir out p = false := by
  have hp2 : p ∈ (w.fs.files.filter
      (fun e => !(e.1 == out || underDir out e.1))).map Prod.fst := hp
  rw [List.mem_map] at hp2
  obtain ⟨e, he, hpe⟩ := hp2
  have h3 : (!(e.1 == out || underDir out e.1)) = true :=
    (List.mem_filter.mp he).2
  simp only [Bool.not_eq_eq_eq_not, Bool.not_true, Bool.or_eq_false_iff]
    at h3
  rw [← hpe]
  exact h3.2

/-- Claim C8: a full project write first removes the entire output directory
tree and recreates it (the two oldest new events), and every file present
under the output directory after a successful `write_project` was created by
an event of this very write — no file from a prior write persists unless
re-emitted.  (`environ.systems.remove` is not under `src/` and is modelled
from the spec.) -/
theorem write_project_fresh_output (env : Env) (proj : Project)
    (w w2 : World) (h : write_project env proj w = .ok w2) :
    ∃ es, w2.trace = es ++ w.trace ∧
      (∃ es0, es = es0 ++ [Event.makeDirs proj.output_directory,
        Event.removeTree proj.output_directory]) ∧
      ∀ p, p ∈ filePaths w2.fs → underDir proj.output_directory p = true →
        p ∈ writesIn es := by
  unfold write_project at h
  obtain ⟨pA, hA, h⟩ := bind_ok_inv h
  obtain ⟨wi, w3⟩ := pA
  obtain ⟨pS, hS, h⟩ := bind_ok_inv h
  obtain ⟨steps0, w4⟩ := pS
  obtain ⟨pC, hC, h⟩ := bind_ok_inv h
  obtain ⟨bb, w5⟩ := pC
  have t1 : TraceOk (mkdirsW (systems_remove w proj.output_directory)
      proj.output_directory) w3 := traceOk_add_web_includes hA
  have t2 : TraceOk w3 w4 := by
    refine traceOk_foldlM_pair _ ?_ _ _ _ hS
    intro acc x out2 hx
    obtain ⟨p1, hws, hx⟩ := bind_ok_inv hx
    obtain ⟨r1, w6⟩ := p1
    simp only [Except.ok.injEq] at hx
    rw [← hx]
    exact traceOk_write_step hws
  have t4 : TraceOk (writeTextW w4 proj.output_path
      (env.render_template "report.js.template" (Json.obj
        [("steps", .arr steps0),
         ("includes", .arr (wi.map WebInclude.toJson)),
         ("settings", .obj proj.settings),
         ("cauldron_version", .arr (env.version_info.map Json.num))]))) w5 :=
    traceOk_copy_assets hC
  have t5 : TraceOk w5 w2 := traceOk_write_baked_html_file h
  have tall : TraceOk (mkdirsW (systems_remove w proj.output_directory)
      proj.output_directory) w2 :=
    traceOk_trans t1 (traceOk_trans t2 (traceOk_trans
      (traceOk_writeTextW w4 proj.output_path _) (traceOk_trans t4 t5)))
  obtain ⟨es0, ht0, hf0⟩ := tall
  refine ⟨es0 ++ [Event.makeDirs proj.output_directory,
    Event.removeTree proj.output_directory], ?_, ⟨es0, rfl⟩, ?_⟩
  · rw [ht0, List.append_assoc]
    rfl
  · intro p hp hu
    rcases hf0 p hp with hin | hin
    · exfalso
      have hfalse : underDir proj.output_directory p = false :=
        not_underDir_filePaths_remove hin
      rw [hfalse] at hu
      exact Bool.noConfusion hu
    · rw [writesIn_append]
      exact List.mem_append_left _ hin

/-- Witness for C8: a concrete successful full write (empty step list, HTML
template present). -/
theorem write_project_fresh_output_witness :
    ∃ es, fixWorldBundleOut.trace = es ++ fixWorldBundle.trace ∧
      (∃ es0, es = es0 ++ [Event.makeDirs fixProj.output_directory,
        Event.removeTree fixProj.output_directory]) ∧
      ∀ p, p ∈ filePaths fixWorldBundleOut.fs →
        underDir fixProj.output_directory p = true → p ∈ writesIn es :=
  write_project_fresh_output fixEnv fixProj fixWorldBundle fixWorldBundleOut
    rfl

end Cauldron
